import Mathlib

/-!
Verification development for the checkpointed incremental geocoding loop of
`src/ingestion/dlthub/main.py` (`geodata-consolidation-pipeline`).

The Python module is embedded shallowly:

* The durable checkpoint row (`raw.ingestion_state`, key
  `last_processed_ward_id`) is an `Option Nat`: `none` means the row is
  absent, `some v` means the row holds `value = v`.
* The `raw.wards` table is a `List (Nat × String)` of `(id, name)` rows.
* Database / network failures are injected through boolean oracles in an
  `Env` record, so that every `try/except` branch of the Python code is an
  explicit branch here.
* `run_incremental_geocoding` is modelled with explicit fuel; fuel
  exhaustion is the distinct outcome `RunError.outOfFuel`, never confused
  with the fatal (uncaught-exception) outcome `RunError.fatal`.
* The per-record side effects (sink writes via `pipeline.run`, checkpoint
  advances via `update_last_processed_ward_id`) are recorded in an event
  trace, and per-batch bookkeeping (`batchSuccesses`, `fetchedIds`) is kept
  as ghost state that no control-flow decision reads.
-/

/-- One observable side effect of processing a single ward, in program
order.  `store id` is a successful `pipeline.run` (sink write) for the
ward, `advance id` a successful `update_last_processed_ward_id(id)`;
the `*Fail` events mark the exception raised at the corresponding call
site (and caught by the per-record `except` block in the loop). -/
inductive Event where
  | store (id : Nat)
  | advance (id : Nat)
  | geocodeFail (id : Nat)
  | storeFail (id : Nat)
  | advanceFail (id : Nat)
deriving DecidableEq, Repr

/-- The external world of one run: the `raw.wards` table plus failure
oracles for each fallible collaborator call.

* `geocodeFails a` — the remote geocode request for address `a` raises
  inside `pipeline.run` (the `rest_api_source` built by `geocode_address`
  is evaluated lazily there);
* `sinkFails a` — the destination write of the geocode payload for
  address `a` raises inside `pipeline.run`;
* `updateFails i` — the checkpoint upsert `update_last_processed_ward_id(i)`
  raises (transaction not committed, so the stored value is unchanged);
* `fetchFails k` — the `SELECT ... FROM raw.wards` of the `k`-th batch
  fetch raises;
* `readFails` — the `SELECT value FROM raw.ingestion_state` raises;
* `initFails` — `_init_ingestion_state_table` raises. -/
structure Env where
  wards : List (Nat × String)
  geocodeFails : String → Bool
  sinkFails : String → Bool
  updateFails : Nat → Bool
  fetchFails : Nat → Bool
  readFails : Bool
  initFails : Bool

/-- `get_last_processed_ward_id` (main.py:74-92): returns the stored
checkpoint value, `0` when the row is absent (`result[0] if result else 0`),
and `0` when the read raises (the `except` branch logs a warning and
returns `0`). -/
def get_last_processed_ward_id (readFails : Bool) (ckpt : Option Nat) : Nat :=
  if readFails then 0 else ckpt.getD 0

/-- `update_last_processed_ward_id` (main.py:95-115): upserts
`value = ward_id` in a single committed transaction; on a storage error the
exception is re-raised (`.error`) and, the transaction never having been
committed, the stored value is unchanged. -/
def update_last_processed_ward_id (updateFails : Bool) (ckpt : Option Nat)
    (ward_id : Nat) : Except String (Option Nat) :=
  if updateFails then .error "checkpoint update failed" else .ok (some ward_id)

/-- Row order used by `ORDER BY id`. -/
def byId (a b : Nat × String) : Prop := a.1 ≤ b.1

instance : DecidableRel byId := fun a b => Nat.decLe a.1 b.1

instance : IsTotal (Nat × String) byId := ⟨fun a b => Nat.le_total a.1 b.1⟩

instance : IsTrans (Nat × String) byId := ⟨fun _ _ _ => Nat.le_trans⟩

/-- The SQL of `get_unprocessed_wards` (main.py:128-131):
`SELECT id, name FROM raw.wards WHERE id > last_id ORDER BY id LIMIT batch_size`.
A SQL table is an unordered bag of rows, so the model filters, sorts by
`id`, then takes the limit. -/
def wards_query (table : List (Nat × String)) (last_id : Nat)
    (batch_size : Nat) : List (Nat × String) :=
  (List.insertionSort byId (table.filter fun w => decide (last_id < w.1))).take
    batch_size

/-- `get_unprocessed_wards` (main.py:118-141): reads the cursor via
`get_last_processed_ward_id` (fail-open), then runs the `raw.wards` query;
a query error is re-raised to the caller.  `k` indexes which batch fetch of
the run this is, so the oracle can fail a specific fetch. -/
def get_unprocessed_wards (env : Env) (k : Nat) (ckpt : Option Nat)
    (batch_size : Nat) : Except String (List (Nat × String)) :=
  if env.fetchFails k then .error "error fetching unprocessed wards"
  else
    .ok (wards_query env.wards (get_last_processed_ward_id env.readFails ckpt)
      batch_size)

/-- The mutable state of one `run_incremental_geocoding` invocation:
the durable checkpoint row, the two `RunStats` counters, and ghost
instrumentation (`events` in program order; `batchSuccesses` records, per
non-empty batch, how many of its records were processed successfully;
`fetchedIds` the ids of every record returned by any batch fetch). -/
structure RunState where
  checkpoint : Option Nat
  total_processed : Nat
  total_failed : Nat
  events : List Event
  batchSuccesses : List Nat
  fetchedIds : List Nat
deriving DecidableEq, Repr

/-- The body of the per-record `for` loop (main.py:180-195): geocode and
load via `pipeline.run`; on success advance the checkpoint and increment
`total_processed`; any exception — including one raised by
`update_last_processed_ward_id` — is caught by the `except` block, which
increments `total_failed` and continues. -/
def process_ward (env : Env) (st : RunState) (w : Nat × String) : RunState :=
  if env.geocodeFails w.2 then
    { st with total_failed := st.total_failed + 1,
              events := st.events ++ [.geocodeFail w.1] }
  else if env.sinkFails w.2 then
    { st with total_failed := st.total_failed + 1,
              events := st.events ++ [.storeFail w.1] }
  else
    match update_last_processed_ward_id (env.updateFails w.1) st.checkpoint w.1 with
    | .error _ =>
        { st with total_failed := st.total_failed + 1,
                  events := st.events ++ [.store w.1, .advanceFail w.1] }
    | .ok ckpt =>
        { st with checkpoint := ckpt,
                  total_processed := st.total_processed + 1,
                  events := st.events ++ [.store w.1, .advance w.1] }

/-- How a run ends abnormally: `fatal` is an uncaught Python exception
propagating out of `run_incremental_geocoding`; `outOfFuel` is an artifact
of the fueled model (the real loop simply has not terminated yet). -/
inductive RunError where
  | fatal (msg : String)
  | outOfFuel
deriving DecidableEq, Repr

/-- The `while True` loop of `run_incremental_geocoding` (main.py:171-195):
fetch a batch after the current cursor; an empty batch breaks the loop
(terminal state); otherwise process every record of the batch in order and
repeat.  A batch-fetch error propagates (it is raised outside the
per-record `try`).  `k` counts the fetches made so far. -/
def run_loop (env : Env) (batch_size : Nat) :
    Nat → Nat → RunState → Except RunError RunState
  | 0, _, _ => .error .outOfFuel
  | fuel + 1, k, st =>
    match get_unprocessed_wards env k st.checkpoint batch_size with
    | .error e => .error (.fatal e)
    | .ok [] => .ok st
    | .ok (w :: ws) =>
        let st1 := (w :: ws).foldl (process_ward env) st
        run_loop env batch_size fuel (k + 1)
          { st1 with
              batchSuccesses :=
                st1.batchSuccesses ++ [st1.total_processed - st.total_processed],
              fetchedIds := st1.fetchedIds ++ (w :: ws).map Prod.fst }

/-- `run_incremental_geocoding` (main.py:161-201): initialize the state
table (failure propagates — fatal), zero both counters, then run the batch
loop starting from the stored cursor. -/
def run_incremental_geocoding (env : Env) (batch_size : Nat)
    (ckpt0 : Option Nat) (fuel : Nat) : Except RunError RunState :=
  if env.initFails then .error (.fatal "error initializing state table")
  else run_loop env batch_size fuel 0 ⟨ckpt0, 0, 0, [], [], []⟩

/-- Ids of successful checkpoint advances in a trace, in order. -/
def advanceIds (tr : List Event) : List Nat :=
  tr.filterMap fun e => match e with | .advance i => some i | _ => none

/-- Ids of successful sink writes in a trace, in order. -/
def storeIds (tr : List Event) : List Nat :=
  tr.filterMap fun e => match e with | .store i => some i | _ => none

/-- A sequence of successful `update_last_processed_ward_id` calls applied
to the stored checkpoint row (the oracle is `false`, so every call
succeeds; the `.error` branch is unreachable and keeps the row). -/
def advance_seq (ckpt : Option Nat) : List Nat → Option Nat
  | [] => ckpt
  | i :: is =>
    match update_last_processed_ward_id false ckpt i with
    | .ok c => advance_seq c is
    | .error _ => ckpt

/-- Durability ordering of a trace: every checkpoint-advance call for id
`i` — successful (`advance i`) or not (`advanceFail i`) — is strictly
preceded by a successful sink write (`store i`) for the same id. -/
def storeBeforeAdvance (tr : List Event) : Prop :=
  ∀ (n i : Nat),
    (tr[n]? = some (Event.advance i) ∨ tr[n]? = some (Event.advanceFail i)) →
    ∃ m : Nat, m < n ∧ tr[m]? = some (Event.store i)

/-- An environment in which every collaborator call succeeds, over the
given `raw.wards` table. -/
def envAll (table : List (Nat × String)) : Env :=
  ⟨table, fun _ => false, fun _ => false, fun _ => false, fun _ => false,
    false, false⟩

/-- Three-ward table where only the geocode call for ward 2's address
fails. -/
def env1 : Env :=
  { envAll [(1, "A"), (2, "B"), (3, "C")] with
      geocodeFails := fun a => a == "B" }

/-- Three-ward table where only the checkpoint upsert for ward id 2
fails. -/
def env2 : Env :=
  { envAll [(1, "A"), (2, "B"), (3, "C")] with
      updateFails := fun i => i == 2 }

/-- The end-to-end scenario table `[(1,"A"),(2,"B"),(3,"C")]`, every call
succeeding. -/
def env9 : Env := envAll [(1, "A"), (2, "B"), (3, "C")]

/-- The resumption scenario table `[(1,"A"),(2,"B"),(3,"C"),(4,"D")]`,
every call succeeding. -/
def env7 : Env := envAll [(1, "A"), (2, "B"), (3, "C"), (4, "D")]

/-- Environment whose state-table creation fails. -/
def envI : Env := { envAll [(1, "A")] with initFails := true }

/-- The loop state at entry of `run_incremental_geocoding`. -/
def initState (ckpt0 : Option Nat) : RunState := ⟨ckpt0, 0, 0, [], [], []⟩

/-- Final state of the end-to-end scenario run (`env9`, batch size 2,
empty initial checkpoint). -/
def S9 : RunState :=
  ⟨some 3, 3, 0,
    [.store 1, .advance 1, .store 2, .advance 2, .store 3, .advance 3],
    [2, 1], [1, 2, 3]⟩

/-- Final state of the resumption scenario run (`env7`, cursor pre-set
to 2). -/
def S7 : RunState :=
  ⟨some 4, 2, 0, [.store 3, .advance 3, .store 4, .advance 4], [2], [3, 4]⟩

/-- Final state of the checkpoint-write-failure run (`env2`). -/
def S2 : RunState :=
  ⟨some 3, 2, 1,
    [.store 1, .advance 1, .store 2, .advanceFail 2, .store 3, .advance 3],
    [2], [1, 2, 3]⟩

/-- C5: `update_last_processed_ward_id` is idempotent: a first successful
call sets the stored value to `N`, and a second successful call with the
same `N` (the retry) leaves the stored value `N` — the same id applied
twice is a no-op on the value. -/
theorem C5_advance_idempotent (c : Option Nat) (N : Nat) :
    update_last_processed_ward_id false c N = .ok (some N) ∧
    update_last_processed_ward_id false (some N) N = .ok (some N) :=
  ⟨rfl, rfl⟩

/-- C6: `get_last_processed_ward_id` is fail-open: when the read raises it
returns `0`, and when the checkpoint row is absent it returns `0`; it is a
total function into `Nat`, never an error value. -/
theorem C6_fail_open_cursor_read (c : Option Nat) :
    get_last_processed_ward_id true c = 0 ∧
    get_last_processed_ward_id false none = 0 :=
  ⟨rfl, rfl⟩

/-- C9: end-to-end scenario — wards `[(1,"A"),(2,"B"),(3,"C")]`, batch
size 2, empty initial checkpoint, every call succeeding: the run reaches
`DONE` with `total_processed = 3`, `total_failed = 0`, final cursor `3`,
exactly 3 sink stores for ids `1,2,3` in order, and exactly 3 checkpoint
advances in order `1,2,3`. -/
theorem C9_end_to_end :
    run_incremental_geocoding env9 2 none 5 = .ok S9 ∧
    S9.total_processed = 3 ∧ S9.total_failed = 0 ∧
    get_last_processed_ward_id false S9.checkpoint = 3 ∧
    storeIds S9.events = [1, 2, 3] ∧ (storeIds S9.events).length = 3 ∧
    advanceIds S9.events = [1, 2, 3] ∧ (advanceIds S9.events).length = 3 :=
  ⟨rfl, rfl, rfl, rfl, rfl, rfl, rfl, rfl⟩

/-- The state after the per-record `for` loop runs over the batch
`[(1,"A"),(2,"B"),(3,"C")]` when ward 2's geocode call fails. -/
def B1 : RunState :=
  [(1, "A"), (2, "B"), (3, "C")].foldl (process_ward env1) (initState none)

/-- C1 counterexample: in the 3-record batch with record 2's enrichment
failing, the stats are as claimed (`total_processed = 2`,
`total_failed = 1`) but the cursor reads `3` — record 3's id — not
record 1's id: ward 3's success advanced the checkpoint past the failed
ward 2. -/
theorem C1_counterexample :
    B1.total_processed = 2 ∧ B1.total_failed = 1 ∧
    get_last_processed_ward_id false B1.checkpoint = 3 ∧
    get_last_processed_ward_id false B1.checkpoint ≠ 1 :=
  ⟨rfl, rfl, rfl, by decide⟩

/-- C1 amended: for the batch of records `1,2,3` where record 2's
enrichment call fails and records 1 and 3 succeed, after the loop
processes the batch `total_processed = 2` and `total_failed = 1`, and the
checkpoint cursor equals record 3's id: the checkpoint does advance past
the failed record when a later record in the same batch succeeds. -/
theorem C1_amended :
    B1.total_processed = 2 ∧ B1.total_failed = 1 ∧ B1.checkpoint = some 3 ∧
    B1.events =
      [.store 1, .advance 1, .geocodeFail 2, .store 3, .advance 3] :=
  ⟨rfl, rfl, rfl, rfl⟩

/-- C2 counterexample: with the checkpoint upsert for ward 2 as the only
injected failure, the write failure raised by
`update_last_processed_ward_id` during ward 2's processing is caught by
the per-record `except` handler: the run completes normally (`.ok`,
reaching `DONE`) with the failure reflected only in `total_failed` — it
does not propagate and does not terminate the run. -/
theorem C2_counterexample :
    env2.updateFails 2 = true ∧
    run_incremental_geocoding env2 50 none 5 = .ok S2 ∧
    S2.total_failed = 1 ∧ S2.events =
      [.store 1, .advance 1, .store 2, .advanceFail 2, .store 3, .advance 3] :=
  ⟨rfl, rfl, rfl, rfl⟩

/-- Starting value is a lower bound: applying any prefix of a sequence of
successful advances whose arguments all dominate the current cursor read
can only move the read upward. -/
theorem advance_seq_take_ge (ids : List Nat) :
    ∀ (c : Option Nat) (l : Nat), List.Pairwise (· ≤ ·) ids →
      (∀ j ∈ ids, c.getD 0 ≤ j) →
      c.getD 0 ≤ (advance_seq c (ids.take l)).getD 0 := by
  induction ids with
  | nil => intro c l _ _; simp [advance_seq]
  | cons i is ih =>
    intro c l hp hc
    cases l with
    | zero => simp [advance_seq]
    | succ l =>
      have h1 : c.getD 0 ≤ i := hc i (List.mem_cons_self i is)
      have h2 : ∀ j ∈ is, (some i : Option Nat).getD 0 ≤ j := fun j hj =>
        (List.pairwise_cons.mp hp).1 j hj
      calc c.getD 0 ≤ i := h1
        _ ≤ (advance_seq (some i) (is.take l)).getD 0 :=
            ih (some i) l (List.pairwise_cons.mp hp).2 h2
        _ = (advance_seq c ((i :: is).take (l + 1))).getD 0 := rfl

/-- Monotonicity of cursor reads across prefixes of a successful advance
sequence with non-decreasing arguments all dominating the starting
read. -/
theorem advance_seq_take_mono (ids : List Nat) :
    ∀ (c : Option Nat) (k l : Nat), List.Pairwise (· ≤ ·) ids →
      (∀ j ∈ ids, c.getD 0 ≤ j) → k ≤ l →
      (advance_seq c (ids.take k)).getD 0 ≤
        (advance_seq c (ids.take l)).getD 0 := by
  induction ids with
  | nil => intro c k l _ _ _; simp [advance_seq]
  | cons i is ih =>
    intro c k l hp hc hkl
    cases k with
    | zero =>
      simpa [advance_seq] using advance_seq_take_ge (i :: is) c l hp hc
    | succ k =>
      cases l with
      | zero => omega
      | succ l =>
        have h2 : ∀ j ∈ is, (some i : Option Nat).getD 0 ≤ j := fun j hj =>
          (List.pairwise_cons.mp hp).1 j hj
        exact ih (some i) k l (List.pairwise_cons.mp hp).2 h2
          (Nat.le_of_succ_le_succ hkl)

/-- C4: monotonicity of the persisted checkpoint.  Starting from the
checkpoint row's creation (`none`, read as `0`), after any sequence of
successful `update_last_processed_ward_id` calls with non-decreasing
arguments, the cursor read after a shorter prefix of calls never exceeds
the read after a longer prefix: `get_last_processed_ward_id` never returns
a value less than a value it previously returned. -/
theorem C4_cursor_monotone (ids : List Nat) (k l : Nat)
    (hc : List.Chain' (· ≤ ·) ids) (hkl : k ≤ l) :
    get_last_processed_ward_id false (advance_seq none (ids.take k)) ≤
      get_last_processed_ward_id false (advance_seq none (ids.take l)) := by
  have hp : List.Pairwise (· ≤ ·) ids := List.chain'_iff_pairwise.mp hc
  simpa [get_last_processed_ward_id] using
    advance_seq_take_mono ids none k l hp (fun j _ => Nat.zero_le j) hkl

/-- Concrete instance of C4: cursor reads after 1 and after 3 of the
successful advances `1, 1, 3`. -/
theorem C4_cursor_monotone_witness :
    List.Chain' (· ≤ ·) [1, 1, 3] ∧ 1 ≤ 3 ∧
    get_last_processed_ward_id false (advance_seq none ([1, 1, 3].take 1)) ≤
      get_last_processed_ward_id false (advance_seq none ([1, 1, 3].take 3)) := by
  have hc : List.Chain' (· ≤ ·) [1, 1, 3] :=
    List.Chain'.cons (by omega) (List.Chain'.cons (by omega)
      (List.chain'_singleton 3))
  exact ⟨hc, by omega, C4_cursor_monotone [1, 1, 3] 1 3 hc (by omega)⟩

/-- C7: the batch returned by `get_unprocessed_wards`'s query contains
only records with id strictly greater than the cursor value, is ordered
ascending by id, and has length at most the limit; concretely, with the
cursor pre-set to `2` over wards `1..4` the first fetch returns exactly
records `3` and `4`, and in the full run from cursor `2` records `1` and
`2` are never re-fetched (`fetchedIds = [3, 4]`) nor re-enriched
(`storeIds = [3, 4]`). -/
theorem C7_next_batch :
    (∀ (table : List (Nat × String)) (last_id limit : Nat),
        (∀ w ∈ wards_query table last_id limit, last_id < w.1) ∧
        List.Sorted byId (wards_query table last_id limit) ∧
        (wards_query table last_id limit).length ≤ limit) ∧
    wards_query [(1, "A"), (2, "B"), (3, "C"), (4, "D")] 2 50 =
      [(3, "C"), (4, "D")] ∧
    run_incremental_geocoding env7 50 (some 2) 5 = .ok S7 ∧
    S7.fetchedIds = [3, 4] ∧ storeIds S7.events = [3, 4] := by
  refine ⟨fun table last_id limit => ⟨?_, ?_, ?_⟩, rfl, rfl, rfl, rfl⟩
  · intro w hw
    have h1 : w ∈ List.insertionSort byId
        (table.filter fun w => decide (last_id < w.1)) :=
      (List.take_sublist _ _).subset hw
    have h2 : w ∈ table.filter fun w => decide (last_id < w.1) :=
      (List.perm_insertionSort byId _).subset h1
    exact of_decide_eq_true (List.mem_filter.mp h2).2
  · exact (List.sorted_insertionSort byId _).sublist (List.take_sublist _ _)
  · exact List.length_take_le _ _

/-- Concrete instance of C7's universally quantified part: record
`(3, "C")` belongs to the batch fetched after cursor `2`, and its id is
strictly greater than `2`. -/
theorem C7_next_batch_witness :
    ((3, "C") ∈ wards_query [(1, "A"), (2, "B"), (3, "C"), (4, "D")] 2 50) ∧
    2 < 3 := by
  have he : wards_query [(1, "A"), (2, "B"), (3, "C"), (4, "D")] 2 50 =
      [(3, "C"), (4, "D")] := rfl
  have hm : (3, "C") ∈ wards_query [(1, "A"), (2, "B"), (3, "C"), (4, "D")] 2 50 := by
    rw [he]; exact List.mem_cons_self _ _
  exact ⟨hm, (C7_next_batch.1 [(1, "A"), (2, "B"), (3, "C"), (4, "D")] 2 50).1
    (3, "C") hm⟩

/-- A fatal error escaping the batch loop can only originate in a
batch-fetch failure: every per-record failure is caught inside the loop
body. -/
theorem run_loop_fatal (env : Env) (bs : Nat) :
    ∀ (fuel k : Nat) (st : RunState) (e : String),
      run_loop env bs fuel k st = .error (.fatal e) →
      ∃ j : Nat, env.fetchFails j = true := by
  intro fuel
  induction fuel with
  | zero => intro k st e h; simp [run_loop] at h
  | succ fuel ih =>
    intro k st e h
    rw [run_loop] at h
    split at h
    · next e' hg =>
      unfold get_unprocessed_wards at hg
      by_cases hf : env.fetchFails k
      · exact ⟨k, hf⟩
      · simp [hf] at hg
    · simp at h
    · exact ih _ _ _ h

/-- C2 amended: a failure crosses the loop boundary as fatal only if it is
a state-table initialization (startup) failure or a work-source batch-fetch
failure.  In particular a checkpoint write failure raised by
`update_last_processed_ward_id` during a record's processing is caught by
the per-record handler (see the processing branches of `process_ward`) and
never produces a fatal outcome, and neither does any enrichment or
sink-write failure. -/
theorem C2_fatal_classification (env : Env) (bs : Nat) (ckpt0 : Option Nat)
    (fuel : Nat) (e : String)
    (h : run_incremental_geocoding env bs ckpt0 fuel = .error (.fatal e)) :
    env.initFails = true ∨ ∃ j : Nat, env.fetchFails j = true := by
  unfold run_incremental_geocoding at h
  by_cases hi : env.initFails
  · exact Or.inl hi
  · simp only [hi, Bool.false_eq_true, if_false] at h
    exact Or.inr (run_loop_fatal env bs fuel 0 _ e h)

/-- Concrete instance of C2's amended classification: a run whose
state-table creation fails is fatal, and the classification attributes it
to `initFails`. -/
theorem C2_fatal_classification_witness :
    envI.initFails = true ∨ ∃ j : Nat, envI.fetchFails j = true :=
  C2_fatal_classification envI 50 none 1 "error initializing state table" rfl

/-- Appending a block that itself satisfies the durability ordering
preserves `storeBeforeAdvance`. -/
theorem sba_append (tr b : List Event) (htr : storeBeforeAdvance tr)
    (hb : ∀ (n i : Nat),
        (b[n]? = some (Event.advance i) ∨ b[n]? = some (Event.advanceFail i)) →
        ∃ m : Nat, m < n ∧ b[m]? = some (Event.store i)) :
    storeBeforeAdvance (tr ++ b) := by
  intro n i hn
  by_cases h : n < tr.length
  · rw [List.getElem?_append_left h] at hn
    obtain ⟨m, hm, hs⟩ := htr n i hn
    exact ⟨m, hm, by rw [List.getElem?_append_left (lt_trans hm h)]; exact hs⟩
  · push_neg at h
    rw [List.getElem?_append_right h] at hn
    obtain ⟨m, hm, hs⟩ := hb (n - tr.length) i hn
    refine ⟨tr.length + m, by omega, ?_⟩
    rw [List.getElem?_append_right (Nat.le_add_right _ _),
      Nat.add_sub_cancel_left]
    exact hs

/-- A one-event block holding no advance call satisfies the block
condition of `sba_append` vacuously. -/
theorem sba_single (e : Event) (h1 : ∀ i : Nat, e ≠ Event.advance i)
    (h2 : ∀ i : Nat, e ≠ Event.advanceFail i) :
    ∀ (n i : Nat),
      ([e][n]? = some (Event.advance i) ∨ [e][n]? = some (Event.advanceFail i)) →
      ∃ m : Nat, m < n ∧ [e][m]? = some (Event.store i) := by
  intro n i hn
  match n with
  | 0 =>
    simp only [List.getElem?_cons_zero, Option.some.injEq] at hn
    rcases hn with h | h
    · exact absurd h (h1 i)
    · exact absurd h (h2 i)
  | n + 1 => simp at hn

/-- The two-event block `store j` followed by an advance call for `j`
satisfies the block condition of `sba_append`. -/
theorem sba_store_pair (j : Nat) (e : Event)
    (he : e = Event.advance j ∨ e = Event.advanceFail j) :
    ∀ (n i : Nat),
      ([Event.store j, e][n]? = some (Event.advance i) ∨
        [Event.store j, e][n]? = some (Event.advanceFail i)) →
      ∃ m : Nat, m < n ∧ [Event.store j, e][m]? = some (Event.store i) := by
  intro n i hn
  match n with
  | 0 => simp at hn
  | 1 =>
    refine ⟨0, Nat.zero_lt_one, ?_⟩
    rcases he with rfl | rfl <;> simp_all
  | n + 2 => simp at hn

/-- Processing one ward preserves the durability ordering of the trace. -/
theorem sba_process (env : Env) (st : RunState) (w : Nat × String)
    (h : storeBeforeAdvance st.events) :
    storeBeforeAdvance (process_ward env st w).events := by
  unfold process_ward
  split
  · exact sba_append _ _ h (sba_single _ (fun i => by simp) (fun i => by simp))
  · split
    · exact sba_append _ _ h (sba_single _ (fun i => by simp) (fun i => by simp))
    · split
      · exact sba_append _ _ h (sba_store_pair _ _ (Or.inr rfl))
      · exact sba_append _ _ h (sba_store_pair _ _ (Or.inl rfl))

/-- Folding the per-record body over a batch preserves the durability
ordering. -/
theorem sba_foldl (env : Env) :
    ∀ (l : List (Nat × String)) (st : RunState),
      storeBeforeAdvance st.events →
      storeBeforeAdvance (l.foldl (process_ward env) st).events := by
  intro l
  induction l with
  | nil => intro st h; exact h
  | cons w ws ih => intro st h; exact ih _ (sba_process env st w h)

/-- The batch loop preserves the durability ordering of the trace. -/
theorem sba_run_loop (env : Env) (bs : Nat) :
    ∀ (fuel k : Nat) (st st' : RunState), storeBeforeAdvance st.events →
      run_loop env bs fuel k st = .ok st' →
      storeBeforeAdvance st'.events := by
  intro fuel
  induction fuel with
  | zero => intro k st st' _ h; simp [run_loop] at h
  | succ fuel ih =>
    intro k st st' hst h
    rw [run_loop] at h
    split at h
    · simp at h
    · cases h; exact hst
    · refine ih _ _ _ ?_ h
      exact sba_foldl env _ st hst

/-- C3: durability ordering.  In every completed run, every checkpoint
advance call for a record's id — successful or failing — is strictly
preceded in the trace by the successful sink store of that record's
enrichment result; the checkpoint is never advanced to an id whose result
write has not succeeded. -/
theorem C3_store_before_advance (env : Env) (bs : Nat) (ckpt0 : Option Nat)
    (fuel : Nat) (st : RunState)
    (h : run_incremental_geocoding env bs ckpt0 fuel = .ok st) :
    storeBeforeAdvance st.events := by
  unfold run_incremental_geocoding at h
  split at h
  · simp at h
  · refine sba_run_loop env bs fuel 0 _ st ?_ h
    intro n i hn
    simp [initState] at hn

/-- Concrete instance of C3 on the completed end-to-end run. -/
theorem C3_store_before_advance_witness :
    run_incremental_geocoding env9 2 none 5 = .ok S9 ∧
    storeBeforeAdvance S9.events :=
  ⟨rfl, C3_store_before_advance env9 2 none 5 S9 rfl⟩

/-- Processing one ward never touches the per-batch ghost fields. -/
theorem process_ward_ghost (env : Env) (st : RunState) (w : Nat × String) :
    (process_ward env st w).batchSuccesses = st.batchSuccesses ∧
    (process_ward env st w).fetchedIds = st.fetchedIds := by
  unfold process_ward
  split
  · exact ⟨rfl, rfl⟩
  · split
    · exact ⟨rfl, rfl⟩
    · split
      · exact ⟨rfl, rfl⟩
      · exact ⟨rfl, rfl⟩

/-- Processing one ward increments exactly one of the two counters, and
neither counter ever decreases. -/
theorem process_ward_counters (env : Env) (st : RunState) (w : Nat × String) :
    (process_ward env st w).total_processed + (process_ward env st w).total_failed
      = st.total_processed + st.total_failed + 1 ∧
    st.total_processed ≤ (process_ward env st w).total_processed ∧
    st.total_failed ≤ (process_ward env st w).total_failed := by
  unfold process_ward
  split
  · refine ⟨?_, ?_, ?_⟩ <;> dsimp <;> omega
  · split
    · refine ⟨?_, ?_, ?_⟩ <;> dsimp <;> omega
    · split
      · refine ⟨?_, ?_, ?_⟩ <;> dsimp <;> omega
      · refine ⟨?_, ?_, ?_⟩ <;> dsimp <;> omega

/-- Folding the per-record body over a batch leaves the ghost fields
unchanged. -/
theorem foldl_ghost (env : Env) :
    ∀ (l : List (Nat × String)) (st : RunState),
      (l.foldl (process_ward env) st).batchSuccesses = st.batchSuccesses ∧
      (l.foldl (process_ward env) st).fetchedIds = st.fetchedIds := by
  intro l
  induction l with
  | nil => intro st; exact ⟨rfl, rfl⟩
  | cons w ws ih =>
    intro st
    have h := process_ward_ghost env st w
    have h2 := ih (process_ward env st w)
    exact ⟨h2.1.trans h.1, h2.2.trans h.2⟩

/-- Folding the per-record body over a batch adds exactly the batch
length to `total_processed + total_failed`, and `total_processed` does not
decrease. -/
theorem foldl_counters (env : Env) :
    ∀ (l : List (Nat × String)) (st : RunState),
      (l.foldl (process_ward env) st).total_processed +
        (l.foldl (process_ward env) st).total_failed
        = st.total_processed + st.total_failed + l.length ∧
      st.total_processed ≤ (l.foldl (process_ward env) st).total_processed := by
  intro l
  induction l with
  | nil => intro st; exact ⟨rfl, Nat.le_refl _⟩
  | cons w ws ih =>
    intro st
    have hp := process_ward_counters env st w
    have h2 := ih (process_ward env st w)
    simp only [List.foldl_cons, List.length_cons]
    constructor
    · omega
    · exact Nat.le_trans hp.2.1 h2.2

/-- Loop invariant behind C8: if the fetch counter equals the number of
completed batches and `total_processed` equals the sum of per-batch
successes, then at `DONE` the final fetch (the one that ended the loop)
returned the empty batch and the accounting still holds. -/
theorem run_loop_done (env : Env) (bs : Nat) :
    ∀ (fuel k : Nat) (st st' : RunState),
      k = st.batchSuccesses.length →
      st.total_processed = st.batchSuccesses.sum →
      run_loop env bs fuel k st = .ok st' →
      get_unprocessed_wards env st'.batchSuccesses.length st'.checkpoint bs
          = .ok [] ∧
      st'.total_processed = st'.batchSuccesses.sum := by
  intro fuel
  induction fuel with
  | zero => intro k st st' _ _ h; simp [run_loop] at h
  | succ fuel ih =>
    intro k st st' hk hsum h
    rw [run_loop] at h
    split at h
    · simp at h
    · next hg => cases h; exact ⟨hk ▸ hg, hsum⟩
    · next w ws hg =>
      dsimp only at h
      have hg1 := foldl_ghost env (w :: ws) st
      have hc1 := foldl_counters env (w :: ws) st
      simp only [List.foldl_cons] at hg1 hc1 h
      refine ih (k + 1) _ st' ?_ ?_ h
      · dsimp
        rw [List.length_append, hg1.1, hk]
        rfl
      · dsimp
        rw [List.sum_append, hg1.1, ← hsum]
        have := hc1.2
        simp only [List.sum_cons, List.sum_nil]
        omega

/-- Loop invariant behind C10: `total_processed + total_failed` equals the
number of records fetched so far, at every batch boundary and hence at
`DONE`. -/
theorem run_loop_counters (env : Env) (bs : Nat) :
    ∀ (fuel k : Nat) (st st' : RunState),
      st.total_processed + st.total_failed = st.fetchedIds.length →
      run_loop env bs fuel k st = .ok st' →
      st'.total_processed + st'.total_failed = st'.fetchedIds.length := by
  intro fuel
  induction fuel with
  | zero => intro k st st' _ h; simp [run_loop] at h
  | succ fuel ih =>
    intro k st st' hinv h
    rw [run_loop] at h
    split at h
    · simp at h
    · cases h; exact hinv
    · next w ws hg =>
      dsimp only at h
      have hg1 := foldl_ghost env (w :: ws) st
      have hc1 := foldl_counters env (w :: ws) st
      simp only [List.foldl_cons] at hg1 hc1 h
      refine ih (k + 1) _ st' ?_ h
      dsimp
      rw [List.length_append, hg1.2]
      simp only [List.length_cons, List.length_map] at hc1 ⊢
      omega

/-- C8: the loop's sole termination condition is an empty batch.  First
conjunct: whenever a batch request returns the empty sequence the loop
immediately reaches `DONE` with the state unchanged.  Second conjunct: any
run that reaches `DONE` did so because the fetch after its
`batchSuccesses.length` completed batches returned the empty sequence, and
at that point `total_processed` equals the sum of the per-batch success
counts over all prior batches. -/
theorem C8_termination (env : Env) (bs : Nat) :
    (∀ (k fuel : Nat) (st : RunState),
        get_unprocessed_wards env k st.checkpoint bs = .ok [] →
        run_loop env bs (fuel + 1) k st = .ok st) ∧
    (∀ (ckpt0 : Option Nat) (fuel : Nat) (st : RunState),
        run_incremental_geocoding env bs ckpt0 fuel = .ok st →
        get_unprocessed_wards env st.batchSuccesses.length st.checkpoint bs
            = .ok [] ∧
        st.total_processed = st.batchSuccesses.sum) := by
  constructor
  · intro k fuel st h
    rw [run_loop, h]
  · intro ckpt0 fuel st h
    unfold run_incremental_geocoding at h
    split at h
    · simp at h
    · exact run_loop_done env bs fuel 0 (initState ckpt0) st rfl rfl h

/-- Concrete instance of C8 on the end-to-end run: the loop reached `DONE`
after 2 completed batches because the third fetch was empty, and
`total_processed = 3` is the sum of the per-batch successes `[2, 1]`. -/
theorem C8_termination_witness :
    get_unprocessed_wards env9 2 (some 3) 2 = .ok [] ∧ (3 : Nat) = [2, 1].sum := by
  exact (C8_termination env9 2).2 none 5 S9 rfl

/-- C10: counter accounting.  First conjunct: handling one record
increments exactly one of the two counters by one, and neither counter
decreases.  Second conjunct: both counters start at zero
(`initState`), and in any run that reaches `DONE`,
`total_processed + total_failed` equals the total number of records
fetched across all batches of the run. -/
theorem C10_counter_accounting (env : Env) :
    (∀ (st : RunState) (w : Nat × String),
        (process_ward env st w).total_processed +
            (process_ward env st w).total_failed
          = st.total_processed + st.total_failed + 1 ∧
        st.total_processed ≤ (process_ward env st w).total_processed ∧
        st.total_failed ≤ (process_ward env st w).total_failed) ∧
    (∀ (ckpt0 : Option Nat), (initState ckpt0).total_processed = 0 ∧
        (initState ckpt0).total_failed = 0) ∧
    (∀ (bs : Nat) (ckpt0 : Option Nat) (fuel : Nat) (st : RunState),
        run_incremental_geocoding env bs ckpt0 fuel = .ok st →
        st.total_processed + st.total_failed = st.fetchedIds.length) := by
  refine ⟨fun st w => process_ward_counters env st w,
    fun ckpt0 => ⟨rfl, rfl⟩, fun bs ckpt0 fuel st h => ?_⟩
  unfold run_incremental_geocoding at h
  split at h
  · simp at h
  · exact run_loop_counters env bs fuel 0 (initState ckpt0) st rfl h

/-- Concrete instance of C10: one processed record increments the counter
sum from 0 to 1, and the end-to-end run finishes with
`total_processed + total_failed = 3`, the number of fetched records. -/
theorem C10_counter_accounting_witness :
    ((process_ward env9 (initState none) (1, "A")).total_processed +
        (process_ward env9 (initState none) (1, "A")).total_failed
      = 0 + 0 + 1) ∧
    (3 : Nat) + 0 = ([1, 2, 3] : List Nat).length := by
  constructor
  · exact ((C10_counter_accounting env9).1 (initState none) (1, "A")).1
  · exact (C10_counter_accounting env9).2.2 2 none 5 S9 rfl
